import Mathlib

/-!
Verification of the streaming request sequencer in
`speech/snippets/transcribe_streaming_voice_activity_events.py`.

The Python snippet reads an audio file into `content`, chunks it with
`chunk_length = len(content) // 5` and
`stream = [content[start : start + chunk_length] for start in range(0, len(content), chunk_length)]`,
prepends one configuration request, sends the stream, then iterates over the
responses, printing voice-activity events and transcripts while accumulating
every response into a list that it returns.

We embed bytes as `List Nat`, Python's `range` (which raises `ValueError`
when the step is zero) as an `Except`-valued function, and the response
loop as explicit state passing where an `IndexError` from
`result.alternatives[0]` is an `Except.error` carrying the state at the
moment of failure.
-/

namespace SpeechSnippet

/-- Python `range(start, stop, step)` for natural arguments: raises
`ValueError` when `step = 0`, otherwise yields
`start, start + step, ...` while the value is below `stop`. -/
def pyRange (start stop step : Nat) : Except String (List Nat) :=
  if step = 0 then
    Except.error "ValueError: range() arg 3 must not be zero"
  else
    Except.ok ((List.range ((stop - start + step - 1) / step)).map (fun i => start + i * step))

/-- `chunk_length = len(content) // 5`. -/
def chunk_length (content : List Nat) : Nat :=
  content.length / 5

/-- The Python slice `content[start : start + chunk_length]`. -/
def slice (content : List Nat) (start stop : Nat) : List Nat :=
  (content.drop start).take (stop - start)

/-- `stream = [content[start : start + chunk_length] for start in range(0, len(content), chunk_length)]`.
The list comprehension is eager, so the `ValueError` from `range` with a zero
step surfaces here, before any request exists. -/
def stream (content : List Nat) : Except String (List (List Nat)) :=
  match pyRange 0 content.length (chunk_length content) with
  | Except.error e => Except.error e
  | Except.ok starts =>
      Except.ok (starts.map (fun start => slice content start (start + chunk_length content)))

/-- Recursive reference form of the chunking: peel `cl` bytes at a time.
Used only as an induction-friendly characterisation of `stream`. -/
def chunksRec (cl : Nat) (xs : List Nat) : List (List Nat) :=
  if cl = 0 ∨ xs = [] then []
  else xs.take cl :: chunksRec cl (xs.drop cl)
termination_by xs.length
decreasing_by
  simp only [List.length_drop]
  have hxs : xs ≠ [] := by tauto
  have hcl : cl ≠ 0 := by tauto
  have : xs.length ≠ 0 := fun h => hxs (List.length_eq_zero.mp h)
  omega

/-- `cloud_speech.AutoDetectDecodingConfig()`: a marker message with no fields. -/
structure AutoDetectDecodingConfig where
  deriving DecidableEq

/-- `cloud_speech.RecognitionConfig`: the fields set by the snippet. -/
structure RecognitionConfig where
  auto_decoding_config : AutoDetectDecodingConfig
  language_codes : List String
  model : String
  deriving DecidableEq

/-- `cloud_speech.StreamingRecognitionFeatures`: the field set by the snippet. -/
structure StreamingRecognitionFeatures where
  enable_voice_activity_events : Bool
  deriving DecidableEq

/-- `cloud_speech.StreamingRecognitionConfig`: the fields set by the snippet. -/
structure StreamingRecognitionConfig where
  config : RecognitionConfig
  streaming_features : StreamingRecognitionFeatures
  deriving DecidableEq

/-- `cloud_speech.StreamingRecognizeRequest`: the snippet builds either a
configuration request (recognizer + streaming_config) or an audio request. -/
inductive StreamingRecognizeRequest where
  | configReq (recognizer : String) (streaming_config : StreamingRecognitionConfig)
  | audioReq (audio : List Nat)
  deriving DecidableEq

/-- Whether a request is the Configuration variant. -/
def StreamingRecognizeRequest.isConfig : StreamingRecognizeRequest → Bool
  | StreamingRecognizeRequest.configReq _ _ => true
  | StreamingRecognizeRequest.audioReq _ => false

/-- `recognition_config = cloud_speech.RecognitionConfig(auto_decoding_config=..., language_codes=["en-US"], model="long")`. -/
def recognition_config : RecognitionConfig :=
  { auto_decoding_config := {}
    language_codes := ["en-US"]
    model := "long" }

/-- `streaming_features = cloud_speech.StreamingRecognitionFeatures(enable_voice_activity_events=True)`. -/
def streaming_features : StreamingRecognitionFeatures :=
  { enable_voice_activity_events := true }

/-- `streaming_config = cloud_speech.StreamingRecognitionConfig(config=..., streaming_features=...)`. -/
def streaming_config : StreamingRecognitionConfig :=
  { config := recognition_config
    streaming_features := streaming_features }

/-- `config_request = cloud_speech.StreamingRecognizeRequest(recognizer=f"projects/.../recognizers/_", streaming_config=...)`. -/
def config_request (project_id : String) : StreamingRecognizeRequest :=
  StreamingRecognizeRequest.configReq
    ("projects/" ++ project_id ++ "/locations/global/recognizers/_")
    streaming_config

/-- `audio_requests = (cloud_speech.StreamingRecognizeRequest(audio=audio) for audio in stream)`.
The generator draws from `stream`, whose eager construction is where the
zero-step `ValueError` would already have been raised. -/
def audio_requests (content : List Nat) : Except String (List StreamingRecognizeRequest) :=
  match stream content with
  | Except.error e => Except.error e
  | Except.ok s => Except.ok (s.map (fun audio => StreamingRecognizeRequest.audioReq audio))

/-- `def requests(config, audio): yield config; yield from audio`. -/
def requests (config : StreamingRecognizeRequest)
    (audio : List StreamingRecognizeRequest) : List StreamingRecognizeRequest :=
  config :: audio

/-- The full request stream handed to `client.streaming_recognize`:
`requests(config_request, audio_requests)`. -/
def transcribe_requests (project_id : String) (content : List Nat) :
    Except String (List StreamingRecognizeRequest) :=
  match audio_requests content with
  | Except.error e => Except.error e
  | Except.ok auds => Except.ok (requests (config_request project_id) auds)

/-- `cloud_speech.StreamingRecognizeResponse.SpeechEventType`, the values the
snippet compares against (plus the proto default). -/
inductive SpeechEventType where
  | SPEECH_EVENT_TYPE_UNSPECIFIED
  | SPEECH_ACTIVITY_BEGIN
  | SPEECH_ACTIVITY_END
  deriving DecidableEq

/-- A ranked hypothesis inside a result (`result.alternatives[i]`). -/
structure SpeechRecognitionAlternative where
  transcript : String
  deriving DecidableEq

/-- `result` in `response.results`: carries the ranked alternatives. -/
structure StreamingRecognitionResult where
  alternatives : List SpeechRecognitionAlternative
  deriving DecidableEq

/-- `cloud_speech.StreamingRecognizeResponse`: the fields the loop reads. -/
structure StreamingRecognizeResponse where
  speech_event_type : SpeechEventType
  results : List StreamingRecognitionResult
  deriving DecidableEq

/-- The observable state of the response loop: lines printed so far and the
`responses` list accumulated so far. -/
structure ConsumeState where
  printed : List String
  responses : List StreamingRecognizeResponse
  deriving DecidableEq

/-- `for result in response.results: print(f"Transcript: {result.alternatives[0].transcript}")`.
`result.alternatives[0]` on an empty repeated field raises `IndexError`; the
error value carries the lines printed before the failure. -/
def transcriptLines : List StreamingRecognitionResult → Except (List String) (List String)
  | [] => Except.ok []
  | res :: rest =>
    match res.alternatives with
    | [] => Except.error []
    | alt :: _ =>
      match transcriptLines rest with
      | Except.ok ls => Except.ok (("Transcript: " ++ alt.transcript) :: ls)
      | Except.error ls => Except.error (("Transcript: " ++ alt.transcript) :: ls)

/-- One iteration of the response loop: append the response, print the
Begin/End lines if the event type matches, print one transcript line per
result.  An `IndexError` aborts with the state at the moment of failure
(the response is already appended). -/
def consumeStep (st : ConsumeState) (response : StreamingRecognizeResponse) :
    Except ConsumeState ConsumeState :=
  let st1 : ConsumeState := { st with responses := st.responses ++ [response] }
  let st2 : ConsumeState :=
    { st1 with printed := st1.printed ++
        (if response.speech_event_type = SpeechEventType.SPEECH_ACTIVITY_BEGIN then
          ["Speech started."] else []) }
  let st3 : ConsumeState :=
    { st2 with printed := st2.printed ++
        (if response.speech_event_type = SpeechEventType.SPEECH_ACTIVITY_END then
          ["Speech ended."] else []) }
  match transcriptLines response.results with
  | Except.ok ls => Except.ok { st3 with printed := st3.printed ++ ls }
  | Except.error ls => Except.error { st3 with printed := st3.printed ++ ls }

/-- `for response in responses_iterator: ...` over a finite arrival sequence. -/
def consumeLoop (st : ConsumeState) :
    List StreamingRecognizeResponse → Except ConsumeState ConsumeState
  | [] => Except.ok st
  | r :: rest =>
    match consumeStep st r with
    | Except.ok st2 => consumeLoop st2 rest
    | Except.error st2 => Except.error st2

/-- The whole consumption phase: run the loop from the empty state; on normal
termination return the printed lines and the `responses` list (the function's
return value), on `IndexError` return the state at failure. -/
def consume_response_stream (rs : List StreamingRecognizeResponse) :
    Except ConsumeState (List String × List StreamingRecognizeResponse) :=
  match consumeLoop { printed := [], responses := [] } rs with
  | Except.ok st => Except.ok (st.printed, st.responses)
  | Except.error st => Except.error st

/-- The precondition the transcript access silently assumes: every result of
the response carries at least one alternative. -/
def WellFormedResponse (r : StreamingRecognizeResponse) : Prop :=
  ∀ res ∈ r.results, res.alternatives ≠ []

instance (r : StreamingRecognizeResponse) : Decidable (WellFormedResponse r) :=
  inferInstanceAs (Decidable (∀ res ∈ r.results, res.alternatives ≠ []))

/-- The lines a single response contributes, as a function of that response
alone (computed with a total head so it agrees with the loop exactly on
well-formed responses). -/
def responseOutput (r : StreamingRecognizeResponse) : List String :=
  (if r.speech_event_type = SpeechEventType.SPEECH_ACTIVITY_BEGIN then
    ["Speech started."] else []) ++
  (if r.speech_event_type = SpeechEventType.SPEECH_ACTIVITY_END then
    ["Speech ended."] else []) ++
  r.results.map (fun res =>
    "Transcript: " ++ (res.alternatives.headD { transcript := "" }).transcript)

/-! ### Chunking lemmas -/

theorem range_chunks_eq (cl : Nat) (xs : List Nat) (hcl : 0 < cl) :
    (List.range ((xs.length + cl - 1) / cl)).map (fun i => (xs.drop (i * cl)).take cl)
      = chunksRec cl xs := by
  revert hcl
  induction xs using chunksRec.induct cl with
  | case1 xs h =>
    intro hcl
    have hxs : xs = [] := by
      rcases h with h | h
      · omega
      · exact h
    subst hxs
    have h0 : (List.length ([] : List Nat) + cl - 1) / cl = 0 :=
      Nat.div_eq_of_lt (by simp; omega)
    rw [h0]
    simp [chunksRec]
  | case2 xs h ih =>
    intro hcl
    have hxs : xs ≠ [] := by tauto
    have hL : 0 < xs.length := List.length_pos.mpr hxs
    have hn : (xs.length + cl - 1) / cl = ((xs.length - cl) + cl - 1) / cl + 1 := by
      rcases le_or_lt cl xs.length with hle | hlt
      · have e1 : xs.length + cl - 1 = (xs.length - 1) + cl := by omega
        have e2 : (xs.length - cl) + cl - 1 = xs.length - 1 := by omega
        rw [e1, e2, Nat.add_div_right _ hcl]
      · have e1 : (xs.length - cl) + cl - 1 = cl - 1 := by omega
        have e2 : xs.length + cl - 1 = (xs.length - 1) + cl := by omega
        have e3 : (xs.length - 1) / cl = 0 := Nat.div_eq_of_lt (by omega)
        have e4 : (cl - 1) / cl = 0 := Nat.div_eq_of_lt (by omega)
        rw [e1, e2, Nat.add_div_right _ hcl, e3, e4]
    have hdl : (xs.drop cl).length = xs.length - cl := by simp
    have ih2 := ih hcl
    rw [hdl] at ih2
    rw [hn, List.range_succ_eq_map, List.map_cons, List.map_map]
    rw [chunksRec, if_neg h]
    refine congrArg₂ List.cons ?_ ?_
    · simp
    · rw [← ih2]
      have hfun : ((fun i => (xs.drop (i * cl)).take cl) ∘ Nat.succ)
          = (fun i => ((xs.drop cl).drop (i * cl)).take cl) := by
        funext i
        simp only [Function.comp_apply, List.drop_drop, Nat.succ_mul]
        rw [Nat.add_comm]
      rw [hfun]

theorem chunksRec_nil (cl : Nat) : chunksRec cl [] = [] := by
  rw [chunksRec]
  simp

theorem chunksRec_ne_nil (cl : Nat) (xs : List Nat) (hcl : 0 < cl) (hxs : xs ≠ []) :
    chunksRec cl xs ≠ [] := by
  rw [chunksRec, if_neg (by simp [hxs]; omega)]
  simp

theorem stream_eq_chunksRec (content : List Nat) (h : 0 < chunk_length content) :
    stream content = Except.ok (chunksRec (chunk_length content) content) := by
  rw [stream, pyRange, if_neg (by omega)]
  dsimp only
  rw [List.map_map]
  have hfun : ((fun start => slice content start (start + chunk_length content)) ∘
      fun i => 0 + i * chunk_length content)
      = (fun i => (content.drop (i * chunk_length content)).take (chunk_length content)) := by
    funext i
    simp [slice]
  rw [hfun, Nat.sub_zero, range_chunks_eq (chunk_length content) content h]

theorem chunksRec_join (cl : Nat) (xs : List Nat) (hcl : 0 < cl) :
    (chunksRec cl xs).flatten = xs := by
  revert hcl
  induction xs using chunksRec.induct cl with
  | case1 xs h =>
    intro hcl
    have hxs : xs = [] := by
      rcases h with h | h
      · omega
      · exact h
    subst hxs
    rw [chunksRec_nil]
    rfl
  | case2 xs h ih =>
    intro hcl
    rw [chunksRec, if_neg h, List.flatten_cons, ih hcl, List.take_append_drop]

theorem chunksRec_length (cl : Nat) (xs : List Nat) (hcl : 0 < cl) :
    (chunksRec cl xs).length = (xs.length + cl - 1) / cl := by
  rw [← range_chunks_eq cl xs hcl]
  simp

theorem chunksRec_dropLast_length (cl : Nat) (xs : List Nat) (hcl : 0 < cl) :
    ∀ c ∈ (chunksRec cl xs).dropLast, c.length = cl := by
  revert hcl
  induction xs using chunksRec.induct cl with
  | case1 xs h =>
    intro hcl
    have hxs : xs = [] := by
      rcases h with h | h
      · omega
      · exact h
    subst hxs
    rw [chunksRec_nil]
    intro c hc
    simp at hc
  | case2 xs h ih =>
    intro hcl
    rw [chunksRec, if_neg h]
    rcases hrest : chunksRec cl (xs.drop cl) with _ | ⟨b, bs⟩
    · intro c hc
      simp at hc
    · intro c hc
      rw [List.dropLast_cons₂] at hc
      rcases List.mem_cons.mp hc with hc | hc
      · subst hc
        have hdrop : xs.drop cl ≠ [] := by
          intro hnil
          rw [hnil, chunksRec_nil] at hrest
          exact List.cons_ne_nil b bs hrest.symm
        have hlen : cl < xs.length := by
          have := List.length_pos.mpr hdrop
          simp at this
          omega
        simp [List.length_take]
        omega
      · have := ih hcl
        rw [hrest] at this
        exact this c hc

theorem chunksRec_getLast (cl : Nat) (xs : List Nat) (hcl : 0 < cl) (hxs : xs ≠ []) :
    ∃ c, (chunksRec cl xs).getLast? = some c ∧ (c.length < cl ↔ ¬ cl ∣ xs.length) := by
  revert hxs hcl
  induction xs using chunksRec.induct cl with
  | case1 xs h =>
    intro hcl hxs
    rcases h with h | h
    · omega
    · exact absurd h hxs
  | case2 xs h ih =>
    intro hcl hxs
    have hL : 0 < xs.length := List.length_pos.mpr hxs
    rw [chunksRec, if_neg h]
    by_cases hd : xs.drop cl = []
    · have hle : xs.length ≤ cl := by
        have : xs.length - cl = 0 := by simpa using congrArg List.length hd
        omega
      rw [hd, chunksRec_nil]
      refine ⟨xs.take cl, rfl, ?_⟩
      have htl : (xs.take cl).length = xs.length := by
        simp [List.length_take]
        omega
      rw [htl]
      constructor
      · intro hlt hdvd
        rcases hdvd with ⟨k, hk⟩
        rcases k with _ | k
        · omega
        · have : cl ≤ xs.length := by
            rw [hk]
            calc cl = cl * 1 := by omega
            _ ≤ cl * (k + 1) := Nat.mul_le_mul_left cl (by omega)
          omega
      · intro hnd
        rcases lt_or_eq_of_le hle with hlt | heq
        · exact hlt
        · exact absurd (heq ▸ dvd_refl cl) hnd
    · have hlt : cl < xs.length := by
        have := List.length_pos.mpr hd
        simp at this
        omega
      rcases ih hcl hd with ⟨c, hgl, hiff⟩
      rcases hrest : chunksRec cl (xs.drop cl) with _ | ⟨b, bs⟩
      · exact absurd hrest (chunksRec_ne_nil cl (xs.drop cl) hcl hd)
      · rw [hrest] at hgl
        refine ⟨c, ?_, ?_⟩
        · rw [List.getLast?_cons_cons]
          exact hgl
        · rw [hiff]
          have hdl : (xs.drop cl).length = xs.length - cl := by simp
          rw [hdl]
          constructor
          · intro hnd hdvd
            exact hnd (Nat.dvd_sub' hdvd (dvd_refl cl))
          · intro hnd hdvd
            have : cl ∣ (xs.length - cl) + cl := dvd_add hdvd (dvd_refl cl)
            rw [Nat.sub_add_cancel (le_of_lt hlt)] at this
            exact hnd this

/-! ### Response-loop lemmas -/

theorem transcriptLines_ok (results : List StreamingRecognitionResult)
    (h : ∀ res ∈ results, res.alternatives ≠ []) :
    transcriptLines results = Except.ok (results.map (fun res =>
      "Transcript: " ++ (res.alternatives.headD { transcript := "" }).transcript)) := by
  induction results with
  | nil => rfl
  | cons res rest ih =>
    have hres : res.alternatives ≠ [] := h res (List.mem_cons_self res rest)
    have ih2 := ih (fun r hr => h r (List.mem_cons_of_mem res hr))
    rcases halts : res.alternatives with _ | ⟨alt, alts⟩
    · exact absurd halts hres
    · simp only [transcriptLines, halts, ih2, List.map_cons, List.headD_cons]

theorem transcriptLines_error (results : List StreamingRecognitionResult)
    (h : ∃ res ∈ results, res.alternatives = []) :
    ∃ ls, transcriptLines results = Except.error ls := by
  induction results with
  | nil =>
    rcases h with ⟨res, hmem, _⟩
    simp at hmem
  | cons res rest ih =>
    rcases halts : res.alternatives with _ | ⟨alt, alts⟩
    · exact ⟨[], by simp only [transcriptLines, halts]⟩
    · have h2 : ∃ r ∈ rest, r.alternatives = [] := by
        rcases h with ⟨r, hmem, hr⟩
        rcases List.mem_cons.mp hmem with he | hm
        · rw [he, halts] at hr
          cases hr
        · exact ⟨r, hm, hr⟩
      rcases ih h2 with ⟨ls, hls⟩
      exact ⟨("Transcript: " ++ alt.transcript) :: ls,
        by simp only [transcriptLines, halts, hls]⟩

theorem consumeStep_ok (st : ConsumeState) (r : StreamingRecognizeResponse)
    (h : WellFormedResponse r) :
    consumeStep st r = Except.ok
      { printed := st.printed ++ responseOutput r
        responses := st.responses ++ [r] } := by
  unfold consumeStep
  rw [transcriptLines_ok r.results h]
  simp [responseOutput, List.append_assoc]

theorem consumeStep_error (st : ConsumeState) (r : StreamingRecognizeResponse)
    (h : ∃ res ∈ r.results, res.alternatives = []) :
    ∃ st2, consumeStep st r = Except.error st2 ∧ st2.responses = st.responses ++ [r] := by
  rcases transcriptLines_error r.results h with ⟨ls, hls⟩
  unfold consumeStep
  rw [hls]
  exact ⟨_, rfl, rfl⟩

theorem consumeLoop_ok (rs : List StreamingRecognizeResponse) :
    ∀ st, (∀ r ∈ rs, WellFormedResponse r) →
    consumeLoop st rs = Except.ok
      { printed := st.printed ++ (rs.map responseOutput).flatten
        responses := st.responses ++ rs } := by
  induction rs with
  | nil =>
    intro st h
    simp [consumeLoop]
  | cons r rest ih =>
    intro st h
    have hr : WellFormedResponse r := h r (List.mem_cons_self r rest)
    rw [consumeLoop, consumeStep_ok st r hr]
    dsimp only
    rw [ih _ (fun x hx => h x (List.mem_cons_of_mem r hx))]
    simp [List.append_assoc]

theorem consume_response_stream_ok (rs : List StreamingRecognizeResponse)
    (h : ∀ r ∈ rs, WellFormedResponse r) :
    consume_response_stream rs = Except.ok ((rs.map responseOutput).flatten, rs) := by
  rw [consume_response_stream, consumeLoop_ok rs { printed := [], responses := [] } h]
  simp

/-! ### Claim theorems -/

/-- Claim C1: for every audio buffer whose length `L` satisfies `L / 5 > 0`,
the chunks produced by the chunking step (chunk length `L / 5`, slices at
offsets `0, chunk_length, 2 * chunk_length, ...` below `L`), concatenated in
emission order, equal the original buffer byte-for-byte, with no gaps and no
overlaps. -/
theorem chunks_roundtrip (content : List Nat) (h : 0 < chunk_length content) :
    ∃ chunks, stream content = Except.ok chunks ∧ chunks.flatten = content :=
  ⟨chunksRec (chunk_length content) content, stream_eq_chunksRec content h,
    chunksRec_join (chunk_length content) content h⟩

/-- Witness for C1 at the concrete buffer `[10, 11, 12, 13, 14]`. -/
theorem chunks_roundtrip_witness :
    0 < chunk_length [10, 11, 12, 13, 14] ∧
    ∃ chunks, stream [10, 11, 12, 13, 14] = Except.ok chunks ∧
      chunks.flatten = [10, 11, 12, 13, 14] :=
  ⟨by decide, chunks_roundtrip [10, 11, 12, 13, 14] (by decide)⟩

/-- Claim C2: the request stream built by the `requests` generator from one
configuration request and any finite ordered list of audio requests starts
with the configuration request, has exactly the audio requests after it in
their original order, and no configuration request at any later position. -/
theorem requests_config_first (recognizer : String) (cfg : StreamingRecognitionConfig)
    (auds : List (List Nat)) :
    (requests (StreamingRecognizeRequest.configReq recognizer cfg)
        (auds.map StreamingRecognizeRequest.audioReq)).head?
      = some (StreamingRecognizeRequest.configReq recognizer cfg) ∧
    (requests (StreamingRecognizeRequest.configReq recognizer cfg)
        (auds.map StreamingRecognizeRequest.audioReq)).tail
      = auds.map StreamingRecognizeRequest.audioReq ∧
    (auds.map StreamingRecognizeRequest.audioReq).all
        (fun r => !r.isConfig) = true := by
  refine ⟨rfl, rfl, ?_⟩
  rw [List.all_eq_true]
  intro r hr
  rcases List.mem_map.mp hr with ⟨a, _, ha⟩
  rw [← ha]
  rfl

/-- Claim C3: with `cl = L / 5 > 0`, the number of chunks (and of audio
requests) is `⌈L / cl⌉ = (L + cl - 1) / cl`, every chunk except possibly the
last has length exactly `cl`, and the final chunk is shorter than `cl`
exactly when `cl` does not divide `L`. -/
theorem chunk_count_and_sizes (content : List Nat) (h : 0 < chunk_length content) :
    ∃ chunks, stream content = Except.ok chunks ∧
      chunks.length
        = (content.length + chunk_length content - 1) / chunk_length content ∧
      (∃ reqs, audio_requests content = Except.ok reqs ∧ reqs.length = chunks.length) ∧
      (∀ c ∈ chunks.dropLast, c.length = chunk_length content) ∧
      ∃ last, chunks.getLast? = some last ∧
        (last.length < chunk_length content ↔
          ¬ chunk_length content ∣ content.length) := by
  have hne : content ≠ [] := by
    intro hnil
    rw [hnil] at h
    simp [chunk_length] at h
  refine ⟨chunksRec (chunk_length content) content, stream_eq_chunksRec content h,
    chunksRec_length (chunk_length content) content h, ?_, ?_, ?_⟩
  · refine ⟨(chunksRec (chunk_length content) content).map
      StreamingRecognizeRequest.audioReq, ?_, by simp⟩
    rw [audio_requests, stream_eq_chunksRec content h]
  · exact chunksRec_dropLast_length (chunk_length content) content h
  · exact chunksRec_getLast (chunk_length content) content h hne

/-- Witness for C3 at the concrete buffer `[1, 2, 3, 4, 5, 6]`
(`cl = 1`, six chunks, divisible). -/
theorem chunk_count_and_sizes_witness :
    0 < chunk_length [1, 2, 3, 4, 5, 6] ∧
    ∃ chunks, stream [1, 2, 3, 4, 5, 6] = Except.ok chunks ∧
      chunks.length = (List.length [1, 2, 3, 4, 5, 6] + chunk_length [1, 2, 3, 4, 5, 6] - 1)
        / chunk_length [1, 2, 3, 4, 5, 6] ∧
      (∃ reqs, audio_requests [1, 2, 3, 4, 5, 6] = Except.ok reqs ∧
        reqs.length = chunks.length) ∧
      (∀ c ∈ chunks.dropLast, c.length = chunk_length [1, 2, 3, 4, 5, 6]) ∧
      ∃ last, chunks.getLast? = some last ∧
        (last.length < chunk_length [1, 2, 3, 4, 5, 6] ↔
          ¬ chunk_length [1, 2, 3, 4, 5, 6] ∣ List.length [1, 2, 3, 4, 5, 6]) :=
  ⟨by decide, chunk_count_and_sizes [1, 2, 3, 4, 5, 6] (by decide)⟩

/-- Claim C4: for every finite arrival-ordered response sequence (of
well-formed responses, i.e. every result carries at least one ranked
alternative, as the spec's Response data model stipulates), the consumption
loop returns exactly that sequence, in arrival order, as the value handed to
the programmatic caller. -/
theorem consume_preserves_order (rs : List StreamingRecognizeResponse)
    (h : ∀ r ∈ rs, WellFormedResponse r) :
    ∃ outs, consume_response_stream rs = Except.ok (outs, rs) :=
  ⟨(rs.map responseOutput).flatten, consume_response_stream_ok rs h⟩

/-- Witness for C4 at a concrete two-response sequence. -/
theorem consume_preserves_order_witness :
    (∀ r ∈ ([{ speech_event_type := SpeechEventType.SPEECH_ACTIVITY_BEGIN, results := [] },
             { speech_event_type := SpeechEventType.SPEECH_ACTIVITY_END,
               results := [{ alternatives := [{ transcript := "ok" }] }] }] :
        List StreamingRecognizeResponse), WellFormedResponse r) ∧
    ∃ outs, consume_response_stream
      [{ speech_event_type := SpeechEventType.SPEECH_ACTIVITY_BEGIN, results := [] },
       { speech_event_type := SpeechEventType.SPEECH_ACTIVITY_END,
         results := [{ alternatives := [{ transcript := "ok" }] }] }]
      = Except.ok (outs,
        [{ speech_event_type := SpeechEventType.SPEECH_ACTIVITY_BEGIN, results := [] },
         { speech_event_type := SpeechEventType.SPEECH_ACTIVITY_END,
           results := [{ alternatives := [{ transcript := "ok" }] }] }]) :=
  ⟨by decide, consume_preserves_order _ (by decide)⟩

/-- Claim C5: on the synthetic arrival sequence
`[Speech-Activity-Begin, Transcript-Result "hello", Speech-Activity-End]`
the loop prints exactly `Speech started.`, `Transcript: hello`,
`Speech ended.` in that order and returns a list of exactly 3 responses. -/
theorem consume_synthetic_three :
    consume_response_stream
      [{ speech_event_type := SpeechEventType.SPEECH_ACTIVITY_BEGIN, results := [] },
       { speech_event_type := SpeechEventType.SPEECH_EVENT_TYPE_UNSPECIFIED,
         results := [{ alternatives := [{ transcript := "hello" }] }] },
       { speech_event_type := SpeechEventType.SPEECH_ACTIVITY_END, results := [] }]
      = Except.ok (["Speech started.", "Transcript: hello", "Speech ended."],
        [{ speech_event_type := SpeechEventType.SPEECH_ACTIVITY_BEGIN, results := [] },
         { speech_event_type := SpeechEventType.SPEECH_EVENT_TYPE_UNSPECIFIED,
           results := [{ alternatives := [{ transcript := "hello" }] }] },
         { speech_event_type := SpeechEventType.SPEECH_ACTIVITY_END, results := [] }]) ∧
    ([{ speech_event_type := SpeechEventType.SPEECH_ACTIVITY_BEGIN, results := [] },
      { speech_event_type := SpeechEventType.SPEECH_EVENT_TYPE_UNSPECIFIED,
        results := [{ alternatives := [{ transcript := "hello" }] }] },
      { speech_event_type := SpeechEventType.SPEECH_ACTIVITY_END, results := [] }] :
        List StreamingRecognizeResponse).length = 3 :=
  ⟨rfl, rfl⟩

/-- Claim C6: for every buffer of length below 5 (the empty buffer included),
`chunk_length = L / 5 = 0` and the chunking step itself raises an untranslated
`ValueError` (Python `range` with a zero step), so the whole request
construction fails before any request is emitted; no guard prevents this. -/
theorem small_buffer_value_error (project_id : String) (content : List Nat)
    (h : content.length < 5) :
    chunk_length content = 0 ∧
    stream content = Except.error "ValueError: range() arg 3 must not be zero" ∧
    transcribe_requests project_id content
      = Except.error "ValueError: range() arg 3 must not be zero" := by
  have hcl : chunk_length content = 0 := Nat.div_eq_of_lt h
  have hs : stream content = Except.error "ValueError: range() arg 3 must not be zero" := by
    rw [stream, pyRange, if_pos hcl]
  exact ⟨hcl, hs, by rw [transcribe_requests, audio_requests, hs]⟩

/-- Witness for C6 at the empty buffer and a concrete project id. -/
theorem small_buffer_value_error_witness :
    List.length ([] : List Nat) < 5 ∧
    (chunk_length [] = 0 ∧
      stream [] = Except.error "ValueError: range() arg 3 must not be zero" ∧
      transcribe_requests "demo-project" []
        = Except.error "ValueError: range() arg 3 must not be zero") :=
  ⟨by decide, small_buffer_value_error "demo-project" [] (by decide)⟩

/-- Claim C7 counterexample: a buffer of length 6 (`chunk_length = 1`) yields
6 chunks, not 5, so the chunk count is not fixed at 5 for every non-empty
buffer. -/
theorem chunk_count_not_five :
    stream [0, 0, 0, 0, 0, 0] = Except.ok [[0], [0], [0], [0], [0], [0]] ∧
    ([[0], [0], [0], [0], [0], [0]] : List (List Nat)).length ≠ 5 :=
  ⟨rfl, by decide⟩

/-- Claim C7 as amended: the chunk count is not fixed at 5 but equals
`⌈L / (L / 5)⌉`; it is exactly 5 when 5 divides the buffer length, and
otherwise exceeds 5 without exceeding 9. -/
theorem chunk_count_near_five (content : List Nat) (h : 0 < chunk_length content) :
    ∃ chunks, stream content = Except.ok chunks ∧
      chunks.length
        = (content.length + chunk_length content - 1) / chunk_length content ∧
      (5 ∣ content.length → chunks.length = 5) ∧
      (¬ 5 ∣ content.length → 5 < chunks.length ∧ chunks.length ≤ 9) := by
  have hlen := chunksRec_length (chunk_length content) content h
  refine ⟨chunksRec (chunk_length content) content, stream_eq_chunksRec content h,
    hlen, ?_, ?_⟩
  · intro h5
    rcases h5 with ⟨k, hk⟩
    have hclk : chunk_length content = k := by
      rw [chunk_length, hk]
      exact Nat.mul_div_cancel_left k (by omega)
    have hkpos : 0 < k := hclk ▸ h
    rw [hlen, hclk, hk]
    have e : 5 * k + k - 1 = (k - 1) + 5 * k := by omega
    rw [e, Nat.add_mul_div_right _ _ hkpos, Nat.div_eq_of_lt (by omega)]
  · intro h5
    have hcl5 : chunk_length content = content.length / 5 := rfl
    have hmod : 5 * (content.length / 5) + content.length % 5 = content.length :=
      Nat.div_add_mod content.length 5
    have hr5 : content.length % 5 < 5 := Nat.mod_lt _ (by omega)
    have hr0 : content.length % 5 ≠ 0 := fun hz => h5 (Nat.dvd_of_mod_eq_zero hz)
    have e : content.length + chunk_length content - 1
        = (content.length % 5 - 1) + 6 * chunk_length content := by
      rw [hcl5]
      omega
    have hq : (content.length % 5 - 1) / chunk_length content ≤ 3 :=
      le_trans (Nat.div_le_self _ _) (by omega)
    rw [hlen, e, Nat.add_mul_div_right _ _ h]
    exact ⟨lt_of_lt_of_le (by omega) (Nat.le_add_left 6 _), Nat.add_le_add_right hq 6⟩

/-- Witness for the amended C7 at the concrete buffer `[1, 2, 3, 4, 5, 6]`
(length 6, not divisible by 5, six chunks). -/
theorem chunk_count_near_five_witness :
    0 < chunk_length [1, 2, 3, 4, 5, 6] ∧
    ∃ chunks, stream [1, 2, 3, 4, 5, 6] = Except.ok chunks ∧
      chunks.length = (List.length [1, 2, 3, 4, 5, 6] + chunk_length [1, 2, 3, 4, 5, 6] - 1)
        / chunk_length [1, 2, 3, 4, 5, 6] ∧
      (5 ∣ List.length [1, 2, 3, 4, 5, 6] → chunks.length = 5) ∧
      (¬ 5 ∣ List.length [1, 2, 3, 4, 5, 6] → 5 < chunks.length ∧ chunks.length ≤ 9) :=
  ⟨by decide, chunk_count_near_five [1, 2, 3, 4, 5, 6] (by decide)⟩

/-- Claim C8: for every project identifier, the first request of the produced
stream is the Configuration request with recognizer
`projects/{p}/locations/global/recognizers/_`, auto-detect decoding, language
codes `["en-US"]`, model `"long"`, and voice-activity events enabled. -/
theorem config_request_carries_spec_fields (project_id : String) (content : List Nat)
    (h : 0 < chunk_length content) :
    ∃ reqs, transcribe_requests project_id content = Except.ok reqs ∧
      reqs.head? = some (StreamingRecognizeRequest.configReq
        ("projects/" ++ project_id ++ "/locations/global/recognizers/_")
        { config := { auto_decoding_config := {}
                      language_codes := ["en-US"]
                      model := "long" }
          streaming_features := { enable_voice_activity_events := true } }) := by
  refine ⟨requests (config_request project_id)
    ((chunksRec (chunk_length content) content).map StreamingRecognizeRequest.audioReq),
    ?_, rfl⟩
  rw [transcribe_requests, audio_requests, stream_eq_chunksRec content h]

/-- Witness for C8 at a concrete project id and buffer. -/
theorem config_request_carries_spec_fields_witness :
    0 < chunk_length [1, 2, 3, 4, 5] ∧
    ∃ reqs, transcribe_requests "demo-project" [1, 2, 3, 4, 5] = Except.ok reqs ∧
      reqs.head? = some (StreamingRecognizeRequest.configReq
        ("projects/" ++ "demo-project" ++ "/locations/global/recognizers/_")
        { config := { auto_decoding_config := {}
                      language_codes := ["en-US"]
                      model := "long" }
          streaming_features := { enable_voice_activity_events := true } }) :=
  ⟨by decide, config_request_carries_spec_fields "demo-project" [1, 2, 3, 4, 5] (by decide)⟩

/-- Claim C9: response handling is stateless — the printed lines are the
concatenation of a per-response function of each single response, and a
single response that carries both a Begin event and transcript results
contributes both the event line and its transcript lines. -/
theorem consume_stateless (rs : List StreamingRecognizeResponse)
    (h : ∀ r ∈ rs, WellFormedResponse r) :
    consume_response_stream rs = Except.ok ((rs.map responseOutput).flatten, rs) ∧
    ∀ results : List StreamingRecognitionResult,
      responseOutput { speech_event_type := SpeechEventType.SPEECH_ACTIVITY_BEGIN
                       results := results }
        = "Speech started." :: results.map (fun res =>
            "Transcript: " ++ (res.alternatives.headD { transcript := "" }).transcript) := by
  refine ⟨consume_response_stream_ok rs h, ?_⟩
  intro results
  rfl

/-- Witness for C9 at a one-response sequence carrying both a Begin event and
a transcript result. -/
theorem consume_stateless_witness :
    (∀ r ∈ ([{ speech_event_type := SpeechEventType.SPEECH_ACTIVITY_BEGIN,
               results := [{ alternatives := [{ transcript := "hi" }] }] }] :
        List StreamingRecognizeResponse), WellFormedResponse r) ∧
    (consume_response_stream
        [{ speech_event_type := SpeechEventType.SPEECH_ACTIVITY_BEGIN,
           results := [{ alternatives := [{ transcript := "hi" }] }] }]
      = Except.ok
        (([{ speech_event_type := SpeechEventType.SPEECH_ACTIVITY_BEGIN,
             results := [{ alternatives := [{ transcript := "hi" }] }] }].map
              responseOutput).flatten,
          [{ speech_event_type := SpeechEventType.SPEECH_ACTIVITY_BEGIN,
             results := [{ alternatives := [{ transcript := "hi" }] }] }]) ∧
      ∀ results : List StreamingRecognitionResult,
        responseOutput { speech_event_type := SpeechEventType.SPEECH_ACTIVITY_BEGIN
                         results := results }
          = "Speech started." :: results.map (fun res =>
              "Transcript: " ++ (res.alternatives.headD { transcript := "" }).transcript)) :=
  ⟨by decide, consume_stateless _ (by decide)⟩

/-- Claim C10: a response containing a Transcript-Result with an empty
alternatives list makes the loop fail (the `alternatives[0]` access is
unguarded), yet the failing response has already been appended to the
accumulated response list by the time of the failure. -/
theorem consume_empty_alternatives_fails (evt : SpeechEventType)
    (results : List StreamingRecognitionResult)
    (h : ∃ res ∈ results, res.alternatives = []) :
    ∃ st, consume_response_stream [{ speech_event_type := evt, results := results }]
        = Except.error st ∧
      st.responses = [{ speech_event_type := evt, results := results }] := by
  rcases consumeStep_error { printed := [], responses := [] }
      { speech_event_type := evt, results := results } h with ⟨st2, hstep, hresp⟩
  have hloop : consumeLoop { printed := [], responses := [] }
      [{ speech_event_type := evt, results := results }] = Except.error st2 := by
    rw [consumeLoop, hstep]
  refine ⟨st2, ?_, by simpa using hresp⟩
  rw [consume_response_stream, hloop]

/-- Witness for C10 at a concrete response whose only result has no
alternatives. -/
theorem consume_empty_alternatives_fails_witness :
    (∃ res ∈ ([{ alternatives := [] }] : List StreamingRecognitionResult),
      res.alternatives = []) ∧
    ∃ st, consume_response_stream
        [{ speech_event_type := SpeechEventType.SPEECH_EVENT_TYPE_UNSPECIFIED,
           results := [{ alternatives := [] }] }]
        = Except.error st ∧
      st.responses =
        [{ speech_event_type := SpeechEventType.SPEECH_EVENT_TYPE_UNSPECIFIED,
           results := [{ alternatives := [] }] }] :=
  ⟨by decide, consume_empty_alternatives_fails
    SpeechEventType.SPEECH_EVENT_TYPE_UNSPECIFIED [{ alternatives := [] }] (by decide)⟩

end SpeechSnippet
